import Mathlib

/-
Verification of the CaseChallenge analytics pipeline.

The development shallowly embeds the core of the repository:
- the track aggregation and MEAN_RELATIVE scoring of
  `casechallenge_final.py` (`recommend_track`, lines 61-132) and
  `casechallenge_sony.py` (`recommend_track`, lines 118-178), which share
  the same formula;
- the MAX_RELATIVE scoring of `final_case.py` (`recommend_track`,
  lines 73-124);
- the audience segmentation of `casechallenge_final.py`
  (`audience_analysis`, lines 136-196) together with the gender display
  helpers of `casechallenge_sony.py` (lines 23-34).

Numeric values are modelled with exact rationals (the Python code uses
IEEE doubles; every property checked here is either exact arithmetic over
the same field operations or carries an explicit tolerance far above the
double rounding error).  Pandas `groupby(sort=True)` is modelled by
sorting the distinct keys; `Series.unique()` by first-occurrence
deduplication; `sort_values(ascending=False, kind='quicksort')` by a
stable ascending sort whose index order is then reversed, which is the
exact behaviour of numpy's argsort-based descending sort on small inputs
(quicksort falls back to the stable insertion sort below 17 elements and
pandas reverses the ascending indexer).
-/

namespace CaseChallenge

/-- One joined performance row, as consumed by `recommend_track` and
`audience_analysis`: display names, demographic slice, and metrics. -/
structure Record where
  track_name : String
  artist_name : String
  age_group : String
  gender : String
  total_streams : Nat
  total_saves : Nat
  skip_rate : Rat
deriving DecidableEq

/-- One row of the `groupby(['track_name','artist_name']).agg(...)` frame:
streams and saves are summed, skip_rate is the unweighted mean. -/
structure Agg where
  track_name : String
  artist_name : String
  total_streams : Nat
  total_saves : Nat
  skip_rate : Rat
deriving DecidableEq

/-! ### String order and deduplication helpers -/

/-- Lexicographic strict order on strings, via their character lists
(Python string comparison). -/
def strLt (a b : String) : Prop := a.data < b.data

/-- Lexicographic reflexive order on strings. -/
def strLe (a b : String) : Prop := a.data ≤ b.data

instance : DecidableRel strLt := fun a b => by unfold strLt; infer_instance

instance : DecidableRel strLe := fun a b => by unfold strLe; infer_instance

/-- First-occurrence deduplication with an accumulator of already seen
values; models pandas `Series.unique()` (encounter order). -/
def uniqueAux {α : Type} [DecidableEq α] (seen : List α) : List α → List α
  | [] => []
  | a :: as => if a ∈ seen then uniqueAux seen as else a :: uniqueAux (a :: seen) as

/-- Pandas `Series.unique()`: distinct values in order of first
occurrence. -/
def uniqueList {α : Type} [DecidableEq α] (l : List α) : List α := uniqueAux [] l

/-! ### Track aggregation (`groupby(['track_name','artist_name'])`) -/

/-- Ascending lexicographic order on (track_name, artist_name) keys, the
order in which pandas `groupby(sort=True)` emits its groups. -/
def keyLe (a b : String × String) : Prop :=
  strLt a.1 b.1 ∨ (a.1 = b.1 ∧ strLe a.2 b.2)

instance : DecidableRel keyLe := fun a b => by unfold keyLe; infer_instance

/-- The distinct (track_name, artist_name) keys of a frame, in the sorted
order produced by `groupby`. -/
def trackKeys (df : List Record) : List (String × String) :=
  List.insertionSort keyLe (uniqueList (df.map fun r => (r.track_name, r.artist_name)))

/-- The rows of one group. -/
def slice (df : List Record) (k : String × String) : List Record :=
  df.filter fun r => r.track_name == k.1 && r.artist_name == k.2

/-- The aggregated row of one group: summed streams and saves, unweighted
mean skip rate (source: `.agg({'total_streams':'sum','total_saves':'sum',
'skip_rate':'mean'})`). -/
def aggOf (df : List Record) (k : String × String) : Agg :=
  let s := slice df k
  { track_name := k.1
    artist_name := k.2
    total_streams := (s.map Record.total_streams).sum
    total_saves := (s.map Record.total_saves).sum
    skip_rate := (s.map Record.skip_rate).sum / (s.length : Rat) }

/-- The aggregation step shared by every `recommend_track` variant
(casechallenge_final.py lines 66-70, final_case.py lines 76-80). -/
def groupTracks (df : List Record) : List Agg :=
  (trackKeys df).map (aggOf df)

/-! ### MEAN_RELATIVE scoring (casechallenge_final.py lines 73-93) -/

/-- The scored frame row: the aggregated metrics plus the derived columns
added by `recommend_track`.  The `skip_rate` field holds the value after
the in-place division by 100 (line 75 overwrites the column). -/
structure Scored where
  agg : Agg
  save_rate : Rat
  skip_rate : Rat
  save_rate_norm : Rat
  skip_rate_norm : Rat
  stream_share : Rat
  total_score : Rat
deriving DecidableEq

/-- Line 73: `grouped['save_rate'] = grouped['total_saves'] / grouped['total_streams']`. -/
def save_rate_of (a : Agg) : Rat := (a.total_saves : Rat) / (a.total_streams : Rat)

/-- Line 78: mean save rate over the aggregated set. -/
def SAVE_RATE_AVG (aggs : List Agg) : Rat :=
  (aggs.map save_rate_of).sum / (aggs.length : Rat)

/-- Line 79: mean of the skip rates after division by 100. -/
def SKIP_RATE_AVG (aggs : List Agg) : Rat :=
  (aggs.map (fun a => a.skip_rate / 100)).sum / (aggs.length : Rat)

/-- Line 80: total streams over all aggregated tracks. -/
def TOTAL_STREAMS_ALL (aggs : List Agg) : Rat :=
  ((aggs.map Agg.total_streams).sum : Nat)

/-- Lines 73-90: the derived columns and the composite score of one track,
given the whole aggregated population. -/
def mkScored (aggs : List Agg) (a : Agg) : Scored :=
  let sr := save_rate_of a
  let sk := a.skip_rate / 100
  let srn := sr / SAVE_RATE_AVG aggs
  let skn := sk / SKIP_RATE_AVG aggs
  let share := (a.total_streams : Rat) / TOTAL_STREAMS_ALL aggs
  { agg := a
    save_rate := sr
    skip_rate := sk
    save_rate_norm := srn
    skip_rate_norm := skn
    stream_share := share
    total_score := 0.5 * srn - 0.3 * skn + 0.2 * share }

/-- Comparison used by the sort: ascending on `total_score`. -/
def scoreLe (s t : Scored) : Prop := s.total_score ≤ t.total_score

instance : DecidableRel scoreLe := fun a b => by unfold scoreLe; infer_instance

/-- Line 93: `sort_values('total_score', ascending=False)` — pandas sorts
the ascending argsort indexer and reverses it, so ties come out in the
reverse of their frame order. -/
def sortByScoreDesc (l : List Scored) : List Scored :=
  (List.insertionSort scoreLe l).reverse

/-- The scoring half of `recommend_track` (casechallenge_final.py lines
73-93), taking the already aggregated frame: derive the columns, score,
and sort descending.  No row is ever dropped. -/
def score_MEAN_RELATIVE (aggs : List Agg) : List Scored :=
  sortByScoreDesc (aggs.map (mkScored aggs))

/-- The whole `recommend_track` pipeline on raw rows. -/
def recommend_track (df : List Record) : List Scored :=
  score_MEAN_RELATIVE (groupTracks df)

/-! ### MAX_RELATIVE scoring (final_case.py lines 83-95) -/

/-- The scored frame row of the `final_case.py` variant. -/
structure ScoredMax where
  agg : Agg
  save_rate : Rat
  stream_score : Rat
  save_score : Rat
  skip_score : Rat
  total_score : Rat
deriving DecidableEq

/-- Maximum of a list of rationals, as pandas `Series.max()` on a
non-empty column (the empty case never arises in the source flow and is
mapped to 0). -/
def maxQ : List Rat → Rat
  | [] => 0
  | a :: as => as.foldl max a

/-- Line 84: `max_streams = grouped['total_streams'].max()`. -/
def max_streams (aggs : List Agg) : Nat := (aggs.map Agg.total_streams).foldr max 0

/-- Line 85: `max_saves = grouped['total_saves'].max()`. -/
def max_saves (aggs : List Agg) : Nat := (aggs.map Agg.total_saves).foldr max 0

/-- Line 86: `max_skip = grouped['skip_rate'].max()`. -/
def max_skip (aggs : List Agg) : Rat := maxQ (aggs.map Agg.skip_rate)

/-- Lines 83-92: derived columns and composite of one track in the
MAX_RELATIVE variant (`save_rate` is display-only, line 83). -/
def mkScoredMax (aggs : List Agg) (a : Agg) : ScoredMax :=
  let stream_score := (a.total_streams : Rat) / (max_streams aggs : Rat)
  let save_score := (a.total_saves : Rat) / (max_saves aggs : Rat)
  let skip_score := 1 - a.skip_rate / max_skip aggs
  { agg := a
    save_rate := (a.total_saves : Rat) / (a.total_streams : Rat) * 100
    stream_score := stream_score
    save_score := save_score
    skip_score := skip_score
    total_score := stream_score * 0.5 + save_score * 0.3 + skip_score * 0.2 }

/-- Ascending comparison on the MAX_RELATIVE composite. -/
def scoreMaxLe (s t : ScoredMax) : Prop := s.total_score ≤ t.total_score

instance : DecidableRel scoreMaxLe := fun a b => by unfold scoreMaxLe; infer_instance

/-- The scoring half of `final_case.recommend_track` (lines 83-95) on the
aggregated frame. -/
def score_MAX_RELATIVE (aggs : List Agg) : List ScoredMax :=
  ((List.insertionSort scoreMaxLe (aggs.map (mkScoredMax aggs)))).reverse

/-! ### Audience segmentation (casechallenge_final.py lines 136-196) -/

/-- casechallenge_sony.py lines 23-27 (the same conditional appears inline
at casechallenge_final.py line 164). -/
def get_german_gender_text (gender : String) : String :=
  if gender == "MALE" then "männlich" else "weiblich"

/-- casechallenge_sony.py lines 30-34 (inline at casechallenge_final.py
line 178). -/
def get_german_gender_text_primary (gender : String) : String :=
  if gender == "MALE" then "männliche" else "weibliche"

/-- Python `round(x, 1)` on the exact rational value (the source rounds
IEEE doubles; away from representation ties the result agrees, and every
concrete input used below is away from a tie). -/
def round1 (q : Rat) : Rat := (round (q * 10) : Int) / 10

/-- Line 139: filter the frame to the target track and artist. -/
def track_filter (df : List Record) (track_name artist_name : String) : List Record :=
  df.filter fun r => r.track_name == track_name && r.artist_name == artist_name

/-- Line 140: total streams of the filtered frame. -/
def totalStreamsOf (track_df : List Record) : Nat :=
  (track_df.map Record.total_streams).sum

/-- Line 146: `sorted(track_df['age_group'].unique())`. -/
def age_groups (track_df : List Record) : List String :=
  List.insertionSort strLe (uniqueList (track_df.map Record.age_group))

/-- Line 158: `track_df['gender'].unique()` — encounter order, unsorted. -/
def genders (track_df : List Record) : List String :=
  uniqueList (track_df.map Record.gender)

/-- Line 172: streams of one (age, gender) cell. -/
def cellStreams (track_df : List Record) (a g : String) : Nat :=
  ((track_df.filter fun r => r.age_group == a && r.gender == g).map
    Record.total_streams).sum

/-- Lines 169-174: the `age_gender_pct` dictionary in insertion order —
ages ascending (outer loop), genders in encounter order (inner loop),
each share rounded to one decimal before anything else sees it. -/
def age_gender_pct (track_df : List Record) (total_streams : Nat) :
    List ((String × String) × Rat) :=
  (age_groups track_df).flatMap fun a =>
    (genders track_df).map fun g =>
      ((a, g), round1 ((cellStreams track_df a g : Rat) / (total_streams : Rat) * 100))

/-- One step of Python `max`: keep the current best unless the next value
is strictly greater (so the first maximum wins). -/
def pickMax (best y : (String × String) × Rat) : (String × String) × Rat :=
  if best.2 < y.2 then y else best

/-- Line 175: Python `max(d, key=d.get)` — the first key attaining the
maximal value, in insertion order; `none` on an empty dictionary, where
Python raises `ValueError: max() arg is an empty sequence`. -/
def argmaxFirst (l : List ((String × String) × Rat)) :
    Option ((String × String) × Rat) :=
  match l with
  | [] => none
  | x :: xs => some (xs.foldl pickMax x)

/-- Lines 139-176 up to the primary-segment choice: the selected
(age, gender) cell and its rounded share. -/
def primary_segment (df : List Record) (track_name artist_name : String) :
    Option ((String × String) × Rat) :=
  let track_df := track_filter df track_name artist_name
  argmaxFirst (age_gender_pct track_df (totalStreamsOf track_df))

/-- Errors the segmentation run can surface.  `valueError` is the
`ValueError` Python's `max` raises on an empty sequence (line 175 when no
record matches).  `trackNotFound` is modelled from the spec: the spec's
§7 error taxonomy names a `TrackNotFoundError` for a target identity with
no matching records; no such error type exists anywhere in the source. -/
inductive PyError where
  | valueError : PyError
  | trackNotFound : PyError
deriving DecidableEq

/-- The returned audience record (lines 191-196). -/
structure SegmentationResult where
  track : String
  artist : String
  kernzielgruppe : String
  anteil : Rat
deriving DecidableEq

/-- `audience_analysis` (casechallenge_final.py lines 136-196): filter,
cross-tabulate, pick the first maximal rounded cell, and render the
German segment description. -/
def audience_analysis (df : List Record) (track_name artist_name : String) :
    Except PyError SegmentationResult :=
  match primary_segment df track_name artist_name with
  | none => Except.error PyError.valueError
  | some ((age_group, gender), pct) =>
      Except.ok
        { track := track_name
          artist := artist_name
          kernzielgruppe := get_german_gender_text_primary gender ++ " " ++ age_group
          anteil := pct }

/-! ### Per-dimension distributions (casechallenge_final.py lines 146-166) -/

/-- Line 149: streams of one age bucket. -/
def ageStreams (track_df : List Record) (a : String) : Nat :=
  ((track_df.filter fun r => r.age_group == a).map Record.total_streams).sum

/-- Line 161: streams of one gender. -/
def genderStreams (track_df : List Record) (g : String) : Nat :=
  ((track_df.filter fun r => r.gender == g).map Record.total_streams).sum

/-- Lines 148-153: the rounded per-age-bucket shares, in the loop order. -/
def age_pct_list (track_df : List Record) (total_streams : Nat) : List Rat :=
  (age_groups track_df).map fun a =>
    round1 ((ageStreams track_df a : Rat) / (total_streams : Rat) * 100)

/-- Lines 160-166: the rounded per-gender shares, in the loop order. -/
def gender_pct_list (track_df : List Record) (total_streams : Nat) : List Rat :=
  (genders track_df).map fun g =>
    round1 ((genderStreams track_df g : Rat) / (total_streams : Rat) * 100)

/-! ### Claim-side formulas

The definitions below are written from the words of the claims (not from
the source); the theorems compare them against the embedded pipeline. -/

/-- Claim C1's formula: `w_engagement*(save_rate/mean(save_rate)) -
w_quality*((skip_rate/100)/mean(skip_rate/100)) +
w_volume*(total_streams/sum(total_streams))` with
`save_rate = total_saves/total_streams`. -/
def claimCompositeMeanRel (we wq wv : Rat) (aggs : List Agg) (a : Agg) : Rat :=
  let save_rate : Agg → Rat := fun x => (x.total_saves : Rat) / (x.total_streams : Rat)
  let mean : (Agg → Rat) → Rat := fun f => (aggs.map f).sum / (aggs.length : Rat)
  we * (save_rate a / mean save_rate)
    - wq * ((a.skip_rate / 100) / mean (fun x => x.skip_rate / 100))
    + wv * ((a.total_streams : Rat) / (((aggs.map Agg.total_streams).sum : Nat) : Rat))

/-- Claim C2's composite: `0.5*stream_score + 0.3*save_score +
0.2*skip_score` with `stream_score = total_streams/max(total_streams)`,
`save_score = total_saves/max(total_saves)`,
`skip_score = 1 - skip_rate/max(skip_rate)`. -/
def claimCompositeMaxRel (aggs : List Agg) (a : Agg) : Rat :=
  0.5 * ((a.total_streams : Rat) / (((aggs.map Agg.total_streams).foldr max 0 : Nat) : Rat))
    + 0.3 * ((a.total_saves : Rat) / (((aggs.map Agg.total_saves).foldr max 0 : Nat) : Rat))
    + 0.2 * (1 - a.skip_rate / maxQ (aggs.map Agg.skip_rate))

/-- Claim C5's ranking rule between two adjacent scored entries: strictly
descending score, ties descending by total_streams, then ascending by
track name, then by artist name. -/
def claimRank (s t : Scored) : Prop :=
  t.total_score < s.total_score ∨
    (t.total_score = s.total_score ∧
      (t.agg.total_streams < s.agg.total_streams ∨
        (t.agg.total_streams = s.agg.total_streams ∧
          (strLt s.agg.track_name t.agg.track_name ∨
            (s.agg.track_name = t.agg.track_name ∧
              strLe s.agg.artist_name t.agg.artist_name)))))

instance : DecidableRel claimRank := fun a b => by unfold claimRank; infer_instance

/-- Claim C6's selection rule: among the cells of maximal rounded share,
the one that is least in the ascending lexicographic order on
(age-bucket label, gender label). -/
def claimPrimaryLex (cells : List ((String × String) × Rat)) :
    Option ((String × String) × Rat) :=
  let m := maxQ (cells.map fun c => c.2)
  (List.insertionSort (fun c d => keyLe c.1 d.1)
    (cells.filter fun c => c.2 == m)).head?

instance : DecidableRel (fun (c d : (String × String) × Rat) => keyLe c.1 d.1) :=
  fun c d => by dsimp only; infer_instance

/-! ### Claim theorems -/

theorem mem_score_MEAN_RELATIVE {aggs : List Agg} {s : Scored} :
    s ∈ score_MEAN_RELATIVE aggs ↔ s ∈ aggs.map (mkScored aggs) := by
  unfold score_MEAN_RELATIVE sortByScoreDesc
  rw [List.mem_reverse]
  exact (List.perm_insertionSort scoreLe _).mem_iff

theorem mem_score_MAX_RELATIVE {aggs : List Agg} {s : ScoredMax} :
    s ∈ score_MAX_RELATIVE aggs ↔ s ∈ aggs.map (mkScoredMax aggs) := by
  unfold score_MAX_RELATIVE
  rw [List.mem_reverse]
  exact (List.perm_insertionSort scoreMaxLe _).mem_iff

/-! ### Concrete tracks used in witnesses and scenarios -/

/-- Scenario track T1 of spec §8 (already aggregated). -/
def aggT1 : Agg :=
  { track_name := "T1", artist_name := "A1", total_streams := 1000
    total_saves := 100, skip_rate := 5 }

/-- Scenario track T2 of spec §8. -/
def aggT2 : Agg :=
  { track_name := "T2", artist_name := "A2", total_streams := 500
    total_saves := 20, skip_rate := 10 }

/-- Scenario track T3 of spec §8. -/
def aggT3 : Agg :=
  { track_name := "T3", artist_name := "A3", total_streams := 2000
    total_saves := 150, skip_rate := 2 }

/-- The three-track population of spec §8 in groupby (key-sorted) order. -/
def scenarioAggs : List Agg := [aggT1, aggT2, aggT3]

/-- C1: under MEAN_RELATIVE scoring with the hard-coded default weights
0.5/0.3/0.2, every scored track's composite equals
`w_engagement*(save_rate/mean(save_rate)) -
w_quality*((skip_rate/100)/mean(skip_rate/100)) +
w_volume*(total_streams/sum(total_streams))`, the skip term subtracted. -/
theorem C1_mean_relative_formula (aggs : List Agg)
    (h : ∀ a ∈ aggs, 0 < a.total_streams) :
    ∀ s ∈ score_MEAN_RELATIVE aggs,
      s.total_score = claimCompositeMeanRel 0.5 0.3 0.2 aggs s.agg := by
  intro s hs
  rw [mem_score_MEAN_RELATIVE] at hs
  obtain ⟨a, _, rfl⟩ := List.mem_map.mp hs
  simp only [mkScored, claimCompositeMeanRel, save_rate_of, SAVE_RATE_AVG,
    SKIP_RATE_AVG, TOTAL_STREAMS_ALL]
  rfl

/-- Witness for C1: the positivity hypothesis holds on the §8 scenario
population and the theorem applies there. -/
theorem C1_mean_relative_formula_witness :
    (∀ a ∈ scenarioAggs, 0 < a.total_streams) ∧
      ∀ s ∈ score_MEAN_RELATIVE scenarioAggs,
        s.total_score = claimCompositeMeanRel 0.5 0.3 0.2 scenarioAggs s.agg := by
  refine ⟨?_, C1_mean_relative_formula scenarioAggs ?_⟩ <;>
    · intro a ha
      simp only [scenarioAggs, List.mem_cons, List.mem_singleton,
        List.not_mem_nil, or_false] at ha
      rcases ha with rfl | rfl | rfl <;> norm_num [aggT1, aggT2, aggT3]

/-- C2: under MAX_RELATIVE scoring every track's sub-scores are
`total_streams/max(total_streams)`, `total_saves/max(total_saves)` and
`1 - skip_rate/max(skip_rate)`, and the composite places the stream score
in the 0.5 slot and the save score in the 0.3 slot. -/
theorem C2_max_relative_formula (aggs : List Agg) :
    ∀ s ∈ score_MAX_RELATIVE aggs,
      s.stream_score =
          (s.agg.total_streams : Rat) / (((aggs.map Agg.total_streams).foldr max 0 : Nat) : Rat) ∧
      s.save_score =
          (s.agg.total_saves : Rat) / (((aggs.map Agg.total_saves).foldr max 0 : Nat) : Rat) ∧
      s.skip_score = 1 - s.agg.skip_rate / maxQ (aggs.map Agg.skip_rate) ∧
      s.total_score = claimCompositeMaxRel aggs s.agg := by
  intro s hs
  rw [mem_score_MAX_RELATIVE] at hs
  obtain ⟨a, _, rfl⟩ := List.mem_map.mp hs
  refine ⟨rfl, rfl, rfl, ?_⟩
  simp only [mkScoredMax, claimCompositeMaxRel, max_streams, max_saves, max_skip]
  ring

/-- Witness for C2: the theorem applied to the single-track population,
with the membership hypothesis discharged at the concrete element. -/
theorem C2_max_relative_formula_witness :
    (mkScoredMax [aggT1] aggT1).stream_score =
        ((mkScoredMax [aggT1] aggT1).agg.total_streams : Rat) /
          ((([aggT1].map Agg.total_streams).foldr max 0 : Nat) : Rat) ∧
      (mkScoredMax [aggT1] aggT1).save_score =
        ((mkScoredMax [aggT1] aggT1).agg.total_saves : Rat) /
          ((([aggT1].map Agg.total_saves).foldr max 0 : Nat) : Rat) ∧
      (mkScoredMax [aggT1] aggT1).skip_score =
        1 - (mkScoredMax [aggT1] aggT1).agg.skip_rate / maxQ ([aggT1].map Agg.skip_rate) ∧
      (mkScoredMax [aggT1] aggT1).total_score =
        claimCompositeMaxRel [aggT1] (mkScoredMax [aggT1] aggT1).agg :=
  C2_max_relative_formula [aggT1] (mkScoredMax [aggT1] aggT1)
    (by
      rw [mem_score_MAX_RELATIVE]
      exact List.mem_map_of_mem _ (List.mem_singleton.mpr rfl))

/-- A track whose aggregated streams are zero (in Python its `save_rate`
is a division by zero giving NaN, modelled by Rat's total division). -/
def zeroAgg : Agg :=
  { track_name := "Z0", artist_name := "AZ", total_streams := 0
    total_saves := 0, skip_rate := 5 }

/-- C3: the scoring step performs no exclusion at all — a track with
aggregated `total_streams = 0` is still scored (its Python score is NaN,
from `total_saves/total_streams`) and still appears in the returned
ranked list next to a validly scored track; no skipped count exists. -/
theorem C3_zero_stream_track_is_not_excluded :
    ((score_MEAN_RELATIVE [aggT1, zeroAgg]).map fun s => s.agg.track_name) =
      ["T1", "Z0"] := by
  norm_num [score_MEAN_RELATIVE, sortByScoreDesc, List.insertionSort,
    List.orderedInsert, scoreLe, mkScored, save_rate_of, SAVE_RATE_AVG,
    SKIP_RATE_AVG, TOTAL_STREAMS_ALL, aggT1, zeroAgg]

/-- C7: on the §8 scenario population the MEAN_RELATIVE pipeline ranks
the tracks T3, T1, T2 and the composites are within 1e-3 of 0.490,
-0.222 and 0.532. -/
theorem C7_scenario_scores_and_ranking :
    ((score_MEAN_RELATIVE scenarioAggs).map fun s => s.agg.track_name) =
        ["T3", "T1", "T2"] ∧
      |(mkScored scenarioAggs aggT1).total_score - 0.490| ≤ 1 / 1000 ∧
      |(mkScored scenarioAggs aggT2).total_score - (-0.222)| ≤ 1 / 1000 ∧
      |(mkScored scenarioAggs aggT3).total_score - 0.532| ≤ 1 / 1000 := by
  refine ⟨?_, ?_, ?_, ?_⟩ <;>
    norm_num [score_MEAN_RELATIVE, sortByScoreDesc, List.insertionSort,
      List.orderedInsert, scoreLe, mkScored, save_rate_of, SAVE_RATE_AVG,
      SKIP_RATE_AVG, TOTAL_STREAMS_ALL, scenarioAggs, aggT1, aggT2, aggT3,
      abs_le]

instance : IsTotal Scored scoreLe := ⟨fun a b => le_total a.total_score b.total_score⟩

instance : IsTrans Scored scoreLe := ⟨fun _ _ _ => le_trans⟩

/-- C5 (amended): scoring returns every aggregated track exactly once and
the sequence is weakly descending in composite score; no deterministic
tie-break beyond that is applied. -/
theorem C5_amended_perm_and_descending (aggs : List Agg) (hne : aggs ≠ [])
    (hpos : ∀ a ∈ aggs, 0 < a.total_streams) :
    ((score_MEAN_RELATIVE aggs).map Scored.agg).Perm aggs ∧
      (score_MEAN_RELATIVE aggs).Pairwise
        (fun s t => t.total_score ≤ s.total_score) := by
  constructor
  · have h1 : (List.insertionSort scoreLe (aggs.map (mkScored aggs))).Perm
        (aggs.map (mkScored aggs)) := List.perm_insertionSort _ _
    have h3 : (aggs.map (mkScored aggs)).map Scored.agg = aggs := by
      rw [List.map_map]
      exact List.map_id aggs
    unfold score_MEAN_RELATIVE sortByScoreDesc
    rw [List.map_reverse]
    refine (List.reverse_perm _).trans ((h1.map Scored.agg).trans ?_)
    rw [h3]
  · have hs : List.Sorted scoreLe (List.insertionSort scoreLe (aggs.map (mkScored aggs))) :=
      List.sorted_insertionSort scoreLe _
    unfold score_MEAN_RELATIVE sortByScoreDesc
    exact List.pairwise_reverse.mpr hs

/-- Witness for C5 (amended): the §8 scenario population is non-empty,
all its streams are positive, and the theorem applies there. -/
theorem C5_amended_perm_and_descending_witness :
    (scenarioAggs ≠ [] ∧ ∀ a ∈ scenarioAggs, 0 < a.total_streams) ∧
      ((score_MEAN_RELATIVE scenarioAggs).map Scored.agg).Perm scenarioAggs ∧
        (score_MEAN_RELATIVE scenarioAggs).Pairwise
          (fun s t => t.total_score ≤ s.total_score) := by
  refine ⟨⟨by simp [scenarioAggs], ?_⟩,
    C5_amended_perm_and_descending scenarioAggs (by simp [scenarioAggs]) ?_⟩ <;>
    · intro a ha
      simp only [scenarioAggs, List.mem_cons, List.mem_singleton,
        List.not_mem_nil, or_false] at ha
      rcases ha with rfl | rfl | rfl <;> norm_num [aggT1, aggT2, aggT3]

/-- Two aggregated tracks identical in every metric (hence scoring
identically) and differing only in their track names. -/
def tieAggA : Agg :=
  { track_name := "RA", artist_name := "X", total_streams := 100
    total_saves := 10, skip_rate := 5 }

/-- The second of the two tied tracks. -/
def tieAggB : Agg :=
  { track_name := "RB", artist_name := "X", total_streams := 100
    total_saves := 10, skip_rate := 5 }

/-- Counterexample to C5 as stated: on two tied tracks the pandas
descending sort reverses the aggregation order, so the output is
[RB, RA], which violates the claimed ascending-name tie-break. -/
theorem C5_counterexample :
    ¬ (score_MEAN_RELATIVE [tieAggA, tieAggB]).Chain' claimRank := by
  have hev : score_MEAN_RELATIVE [tieAggA, tieAggB] =
      [mkScored [tieAggA, tieAggB] tieAggB, mkScored [tieAggA, tieAggB] tieAggA] := by
    norm_num [score_MEAN_RELATIVE, sortByScoreDesc, List.insertionSort,
      List.orderedInsert, scoreLe, mkScored, save_rate_of, SAVE_RATE_AVG,
      SKIP_RATE_AVG, TOTAL_STREAMS_ALL, tieAggA, tieAggB]
  have hsA : (mkScored [tieAggA, tieAggB] tieAggA).total_score = 3 / 10 := by
    norm_num [mkScored, save_rate_of, SAVE_RATE_AVG, SKIP_RATE_AVG,
      TOTAL_STREAMS_ALL, tieAggA, tieAggB]
  have hsB : (mkScored [tieAggA, tieAggB] tieAggB).total_score = 3 / 10 := by
    norm_num [mkScored, save_rate_of, SAVE_RATE_AVG, SKIP_RATE_AVG,
      TOTAL_STREAMS_ALL, tieAggA, tieAggB]
  have haggA : (mkScored [tieAggA, tieAggB] tieAggA).agg = tieAggA := rfl
  have haggB : (mkScored [tieAggA, tieAggB] tieAggB).agg = tieAggB := rfl
  rw [hev]
  simp only [List.chain'_cons, List.chain'_singleton, and_true]
  intro h
  unfold claimRank at h
  rw [hsA, hsB, haggA, haggB] at h
  norm_num [tieAggA, tieAggB] at h
  rcases h with h | ⟨h, -⟩
  · exact absurd h (by revert h; simp only [strLt]; intro h; exact absurd h (by decide))
  · exact absurd h (by decide)

/-! ### Deduplication and fiber-sum lemmas -/

theorem mem_uniqueAux {α : Type} [DecidableEq α] {a : α} :
    ∀ {l : List α} {seen : List α}, a ∈ uniqueAux seen l ↔ a ∈ l ∧ a ∉ seen := by
  intro l
  induction l with
  | nil => intro seen; simp [uniqueAux]
  | cons b bs ih =>
      intro seen
      by_cases hb : b ∈ seen
      · rw [uniqueAux, if_pos hb, ih]
        constructor
        · rintro ⟨h1, h2⟩
          exact ⟨List.mem_cons_of_mem _ h1, h2⟩
        · rintro ⟨h1, h2⟩
          rcases List.mem_cons.mp h1 with rfl | h1
          · exact absurd hb h2
          · exact ⟨h1, h2⟩
      · rw [uniqueAux, if_neg hb]
        constructor
        · intro h
          rcases List.mem_cons.mp h with rfl | h
          · exact ⟨List.mem_cons_self _ _, hb⟩
          · rcases ih.mp h with ⟨h1, h2⟩
            refine ⟨List.mem_cons_of_mem _ h1, fun hs => h2 ?_⟩
            exact List.mem_cons_of_mem _ hs
        · rintro ⟨h1, h2⟩
          rcases List.mem_cons.mp h1 with rfl | h1
          · exact List.mem_cons_self _ _
          · by_cases hab : a = b
            · subst hab; exact List.mem_cons_self _ _
            · refine List.mem_cons_of_mem _ (ih.mpr ⟨h1, fun hs => ?_⟩)
              rcases List.mem_cons.mp hs with h | h
              · exact hab h
              · exact h2 h

theorem nodup_uniqueAux {α : Type} [DecidableEq α] :
    ∀ (l : List α) (seen : List α), (uniqueAux seen l).Nodup := by
  intro l
  induction l with
  | nil => intro seen; simp [uniqueAux]
  | cons b bs ih =>
      intro seen
      by_cases hb : b ∈ seen
      · rw [uniqueAux, if_pos hb]; exact ih seen
      · rw [uniqueAux, if_neg hb]
        refine List.Nodup.cons (fun h => ?_) (ih (b :: seen))
        exact (mem_uniqueAux.mp h).2 (List.mem_cons_self _ _)

theorem mem_uniqueList {α : Type} [DecidableEq α] {a : α} {l : List α} :
    a ∈ uniqueList l ↔ a ∈ l := by
  unfold uniqueList
  rw [mem_uniqueAux]
  simp

theorem nodup_uniqueList {α : Type} [DecidableEq α] (l : List α) :
    (uniqueList l).Nodup := nodup_uniqueAux l []

/-- Splitting the sum of mapped values along a Boolean predicate. -/
theorem sum_map_filter_split {R M : Type} [AddCommMonoid M] (p : R → Bool)
    (f : R → M) :
    ∀ l : List R,
      ((l.filter p).map f).sum + ((l.filter fun x => !(p x)).map f).sum =
        (l.map f).sum := by
  intro l
  induction l with
  | nil => simp
  | cons x xs ih =>
      by_cases hx : p x
      · have e1 : (x :: xs).filter p = x :: xs.filter p := by
          simp [List.filter_cons, hx]
        have e2 : ((x :: xs).filter fun y => !(p y)) = xs.filter fun y => !(p y) := by
          simp [List.filter_cons, hx]
        rw [e1, e2, List.map_cons, List.sum_cons, add_assoc, ih,
          List.map_cons, List.sum_cons]
      · have e1 : (x :: xs).filter p = xs.filter p := by
          simp [List.filter_cons, hx]
        have e2 : ((x :: xs).filter fun y => !(p y)) =
            x :: (xs.filter fun y => !(p y)) := by
          simp [List.filter_cons, hx]
        rw [e1, e2, List.map_cons, List.sum_cons, add_left_comm, ih,
          List.map_cons, List.sum_cons]

/-- Summing over the fibers of a complete, duplicate-free key list
recovers the total sum. -/
theorem sum_fiber {K R M : Type} [DecidableEq K] [AddCommMonoid M]
    (key : R → K) (f : R → M) :
    ∀ (ks : List K) (l : List R), ks.Nodup → (∀ x ∈ l, key x ∈ ks) →
      (ks.map fun k =>
          ((l.filter fun x => decide (key x = k)).map f).sum).sum =
        (l.map f).sum := by
  intro ks
  induction ks with
  | nil =>
      intro l _ hcov
      have hl : l = [] := by
        cases l with
        | nil => rfl
        | cons x xs => exact absurd (hcov x (List.mem_cons_self _ _)) (List.not_mem_nil _)
      subst hl; simp
  | cons k ks ih =>
      intro l hnd hcov
      have hk : k ∉ ks := (List.nodup_cons.mp hnd).1
      have hnd2 : ks.Nodup := (List.nodup_cons.mp hnd).2
      set l2 := l.filter fun x => !(decide (key x = k)) with hl2
      have hcov2 : ∀ x ∈ l2, key x ∈ ks := by
        intro x hx
        rw [hl2, List.mem_filter] at hx
        have := hcov x hx.1
        rcases List.mem_cons.mp this with h | h
        · exfalso
          have := hx.2
          simp [h] at this
        · exact h
      have hfib : ∀ k2 ∈ ks,
          (l.filter fun x => decide (key x = k2)) =
            (l2.filter fun x => decide (key x = k2)) := by
        intro k2 hk2
        rw [hl2, List.filter_filter]
        refine List.filter_congr ?_
        intro x _
        by_cases hxk : key x = k2
        · have hne2 : k2 ≠ k := fun h => hk (h ▸ hk2)
          simp [hxk, hne2]
        · simp [hxk]
      have hmapcong :
          (ks.map fun k2 => ((l.filter fun x => decide (key x = k2)).map f).sum) =
            (ks.map fun k2 => ((l2.filter fun x => decide (key x = k2)).map f).sum) := by
        refine List.map_congr_left ?_
        intro k2 hk2
        rw [hfib k2 hk2]
      rw [List.map_cons, List.sum_cons, hmapcong, ih l2 hnd2 hcov2, hl2]
      exact sum_map_filter_split _ f l

theorem nodup_trackKeys (df : List Record) : (trackKeys df).Nodup :=
  (List.perm_insertionSort keyLe _).nodup_iff.mpr
    (nodup_uniqueList (df.map fun r => (r.track_name, r.artist_name)))

theorem key_mem_trackKeys {df : List Record} {r : Record} (hr : r ∈ df) :
    (r.track_name, r.artist_name) ∈ trackKeys df := by
  unfold trackKeys
  rw [(List.perm_insertionSort keyLe _).mem_iff, mem_uniqueList]
  exact List.mem_map_of_mem _ hr

theorem slice_eq_filter_key (df : List Record) (k : String × String) :
    slice df k =
      df.filter fun r => decide ((r.track_name, r.artist_name) = k) := by
  unfold slice
  refine List.filter_congr ?_
  intro r _
  cases k with
  | mk k1 k2 =>
      rw [Bool.eq_iff_iff]
      simp [Prod.ext_iff]

/-- C9: the per-identity groupby partitions the rows, so the aggregated
stream and save totals both equal the corresponding input totals. -/
theorem C9_aggregation_conserves_volume (df : List Record) :
    ((groupTracks df).map Agg.total_streams).sum =
        (df.map Record.total_streams).sum ∧
      ((groupTracks df).map Agg.total_saves).sum =
        (df.map Record.total_saves).sum := by
  have hnd := nodup_trackKeys df
  have hcov : ∀ r ∈ df, (fun r : Record => (r.track_name, r.artist_name)) r ∈ trackKeys df :=
    fun r hr => key_mem_trackKeys hr
  constructor
  · rw [groupTracks, List.map_map]
    rw [← sum_fiber (fun r : Record => (r.track_name, r.artist_name))
      Record.total_streams (trackKeys df) df hnd hcov]
    refine congrArg List.sum (List.map_congr_left ?_)
    intro k _
    show ((slice df k).map Record.total_streams).sum = _
    rw [slice_eq_filter_key df k]
  · rw [groupTracks, List.map_map]
    rw [← sum_fiber (fun r : Record => (r.track_name, r.artist_name))
      Record.total_saves (trackKeys df) df hnd hcov]
    refine congrArg List.sum (List.map_congr_left ?_)
    intro k _
    show ((slice df k).map Record.total_saves).sum = _
    rw [slice_eq_filter_key df k]

/-! ### Segmentation error behaviour -/

/-- A sample row present in the dataset used for the C4 scenario. -/
def recSample : Record :=
  { track_name := "T", artist_name := "A", age_group := "18-24"
    gender := "MALE", total_streams := 100, total_saves := 10, skip_rate := 5 }

/-- A track name absent from the dataset. -/
def missingTrack : String := "Missing"

/-- An artist name absent from the dataset. -/
def missingArtist : String := "Nobody"

/-- Counterexample to C4 as stated: on a target identity matching no
record the code fails with Python's `ValueError` (from `max` over the
empty cell dictionary), not with the spec's `TrackNotFoundError` — no
such error type exists in the source. -/
theorem C4_counterexample :
    audience_analysis [recSample] missingTrack missingArtist =
        Except.error PyError.valueError ∧
      audience_analysis [recSample] missingTrack missingArtist ≠
        Except.error PyError.trackNotFound := by
  constructor
  · rfl
  · intro h
    rw [show audience_analysis [recSample] missingTrack missingArtist =
        Except.error PyError.valueError from rfl] at h
    exact PyError.noConfusion (Except.error.inj h)

/-- C4 (amended): segmentation for a target identity matching no record
always fails — the empty cell dictionary makes `max` raise `ValueError` —
rather than returning an empty or zero result; the failure is not the
spec's `TrackNotFoundError`. -/
theorem C4_amended_absent_track_raises (df : List Record) (t a : String)
    (h : ∀ r ∈ df, ¬(r.track_name = t ∧ r.artist_name = a)) :
    audience_analysis df t a = Except.error PyError.valueError := by
  have hfil : track_filter df t a = [] := by
    unfold track_filter
    rw [List.filter_eq_nil_iff]
    intro r hr
    rw [Bool.not_eq_true]
    have := h r hr
    by_cases h1 : r.track_name = t
    · by_cases h2 : r.artist_name = a
      · exact absurd ⟨h1, h2⟩ this
      · simp [h2]
    · simp [h1]
  unfold audience_analysis primary_segment
  rw [hfil]
  rfl

/-- Witness for C4 (amended): the single-row dataset has no record of the
missing identity and the theorem applies there. -/
theorem C4_amended_absent_track_raises_witness :
    (∀ r ∈ [recSample],
        ¬(r.track_name = missingTrack ∧ r.artist_name = missingArtist)) ∧
      audience_analysis [recSample] missingTrack missingArtist =
        Except.error PyError.valueError := by
  have h : ∀ r ∈ [recSample],
      ¬(r.track_name = missingTrack ∧ r.artist_name = missingArtist) := by
    intro r hr
    rw [List.mem_singleton] at hr
    subst hr
    rintro ⟨h1, -⟩
    exact absurd h1 (by simp [recSample, missingTrack])
  exact ⟨h, C4_amended_absent_track_raises [recSample] missingTrack missingArtist h⟩

/-- C10: the German gender rendering is binary — `männlich(e)` exactly on
the string `MALE`, `weiblich(e)` on every other label — both in the
distribution display helper and in the primary-segment description the
returned `SegmentationResult` carries. -/
theorem C10_gender_rendering_is_binary :
    (∀ g : String,
        (get_german_gender_text g = "männlich" ↔ g = "MALE") ∧
          (get_german_gender_text g = "weiblich" ↔ ¬ g = "MALE")) ∧
      (∀ g : String,
        (get_german_gender_text_primary g = "männliche" ↔ g = "MALE") ∧
          (get_german_gender_text_primary g = "weibliche" ↔ ¬ g = "MALE")) ∧
      ∀ (df : List Record) (t a : String),
        (audience_analysis df t a).toOption.map SegmentationResult.kernzielgruppe =
          (primary_segment df t a).map
            (fun c => get_german_gender_text_primary c.1.2 ++ " " ++ c.1.1) := by
  refine ⟨?_, ?_, ?_⟩
  · intro g
    by_cases h : g = "MALE" <;> simp [get_german_gender_text, h]
  · intro g
    by_cases h : g = "MALE" <;> simp [get_german_gender_text_primary, h]
  · intro df t a
    unfold audience_analysis
    cases hps : primary_segment df t a with
    | none => simp [Except.toOption]
    | some c =>
        obtain ⟨⟨ag, g⟩, pct⟩ := c
        simp [Except.toOption]

/-! ### First-maximum and scan-order lemmas for the segmentation grid -/

theorem foldl_pickMax_decomp :
    ∀ (xs : List ((String × String) × Rat)) (x : (String × String) × Rat),
      ∃ pre post,
        x :: xs = pre ++ (xs.foldl pickMax x) :: post ∧
          (∀ y ∈ pre, y.2 < (xs.foldl pickMax x).2) ∧
          ∀ y ∈ x :: xs, y.2 ≤ (xs.foldl pickMax x).2 := by
  intro xs
  induction xs with
  | nil =>
      intro x
      exact ⟨[], [], by simp, by simp, by simp⟩
  | cons y ys ih =>
      intro x
      rw [List.foldl_cons]
      by_cases hxy : x.2 < y.2
      · rw [show pickMax x y = y from by simp [pickMax, hxy]]
        obtain ⟨pre, post, hdec, hpre, hbound⟩ := ih y
        refine ⟨x :: pre, post, ?_, ?_, ?_⟩
        · rw [List.cons_append, ← hdec]
        · intro z hz
          rcases List.mem_cons.mp hz with rfl | hz
          · exact lt_of_lt_of_le hxy (hbound y (List.mem_cons_self _ _))
          · exact hpre z hz
        · intro z hz
          rcases List.mem_cons.mp hz with rfl | hz
          · exact le_of_lt (lt_of_lt_of_le hxy (hbound y (List.mem_cons_self _ _)))
          · exact hbound z hz
      · rw [show pickMax x y = x from by simp [pickMax, hxy]]
        obtain ⟨pre, post, hdec, hpre, hbound⟩ := ih x
        have hyx : y.2 ≤ x.2 := le_of_not_lt hxy
        cases pre with
        | nil =>
            rw [List.nil_append] at hdec
            have hx : x = ys.foldl pickMax x := (List.cons.inj hdec).1
            refine ⟨[], y :: ys, ?_, by simp, ?_⟩
            · rw [List.nil_append, ← hx]
            · intro z hz
              rcases List.mem_cons.mp hz with rfl | hz
              · exact hbound z (List.mem_cons_self _ _)
              · rcases List.mem_cons.mp hz with rfl | hz
                · exact le_trans hyx (hbound x (List.mem_cons_self _ _))
                · exact hbound z (List.mem_cons_of_mem _ hz)
        | cons p pre2 =>
            rw [List.cons_append] at hdec
            have hx : x = p := (List.cons.inj hdec).1
            have hys : ys = pre2 ++ (ys.foldl pickMax x) :: post := (List.cons.inj hdec).2
            refine ⟨x :: y :: pre2, post, ?_, ?_, ?_⟩
            · rw [List.cons_append, List.cons_append, ← hys]
            · intro z hz
              rcases List.mem_cons.mp hz with rfl | hz
              · exact hx ▸ hpre p (List.mem_cons_self _ _)
              · rcases List.mem_cons.mp hz with rfl | hz
                · exact lt_of_le_of_lt hyx (hx ▸ hpre p (List.mem_cons_self _ _))
                · exact hpre z (List.mem_cons_of_mem _ hz)
            · intro z hz
              rcases List.mem_cons.mp hz with rfl | hz
              · exact hbound z (List.mem_cons_self _ _)
              · rcases List.mem_cons.mp hz with rfl | hz
                · exact le_trans hyx (hbound x (List.mem_cons_self _ _))
                · exact hbound z (List.mem_cons_of_mem _ hz)

theorem argmaxFirst_decomp {l : List ((String × String) × Rat)} (hl : l ≠ []) :
    ∃ m pre post,
      argmaxFirst l = some m ∧ l = pre ++ m :: post ∧
        (∀ y ∈ pre, y.2 < m.2) ∧ ∀ y ∈ l, y.2 ≤ m.2 := by
  cases l with
  | nil => exact absurd rfl hl
  | cons x xs =>
      obtain ⟨pre, post, hdec, hpre, hbound⟩ := foldl_pickMax_decomp xs x
      exact ⟨xs.foldl pickMax x, pre, post, rfl, hdec, hpre, hbound⟩

instance : IsTotal String strLe := ⟨fun a b => le_total a.data b.data⟩

instance : IsTrans String strLe := ⟨fun _ _ _ hab hbc => le_trans hab hbc⟩

/-- The scan-order precedence between two grid cells: strictly earlier
age bucket (ascending label order), or the same bucket and a strictly
earlier gender in the encounter order of the filtered records. -/
def cellBefore (track_df : List Record) (c d : (String × String) × Rat) : Prop :=
  strLt c.1.1 d.1.1 ∨
    (c.1.1 = d.1.1 ∧
      (genders track_df).indexOf c.1.2 < (genders track_df).indexOf d.1.2)

theorem pairwise_indexOf_lt {l : List String} (h : l.Nodup) :
    l.Pairwise fun x y => l.indexOf x < l.indexOf y := by
  induction l with
  | nil => exact List.Pairwise.nil
  | cons g gs ih =>
      rw [List.nodup_cons] at h
      refine List.pairwise_cons.mpr ⟨?_, ?_⟩
      · intro y hy
        have hne : g ≠ y := fun he => h.1 (he ▸ hy)
        rw [List.indexOf_cons_self, List.indexOf_cons_ne _ hne]
        exact Nat.succ_pos _
      · refine List.Pairwise.imp_of_mem ?_ (ih h.2)
        intro x y hx hy hlt
        have hgx : g ≠ x := fun he => h.1 (he ▸ hx)
        have hgy : g ≠ y := fun he => h.1 (he ▸ hy)
        rw [List.indexOf_cons_ne _ hgx, List.indexOf_cons_ne _ hgy]
        exact Nat.succ_lt_succ hlt

theorem pairwise_strLt_age_groups (track_df : List Record) :
    (age_groups track_df).Pairwise strLt := by
  have hs : (age_groups track_df).Pairwise strLe :=
    List.sorted_insertionSort strLe _
  have hnd : (age_groups track_df).Nodup :=
    (List.perm_insertionSort strLe _).nodup_iff.mpr (nodup_uniqueList _)
  refine (hs.and hnd).imp ?_
  rintro a b ⟨hle, hne⟩
  exact lt_of_le_of_ne hle fun hd => hne (String.ext hd)

theorem grid_pairwise_cellBefore (track_df : List Record) (total : Nat) :
    (age_gender_pct track_df total).Pairwise (cellBefore track_df) := by
  unfold age_gender_pct
  rw [show ((age_groups track_df).flatMap fun a =>
        (genders track_df).map fun g =>
          ((a, g), round1 ((cellStreams track_df a g : Rat) / (total : Rat) * 100))) =
      ((age_groups track_df).map fun a =>
        (genders track_df).map fun g =>
          ((a, g), round1 ((cellStreams track_df a g : Rat) / (total : Rat) * 100))).flatten
    from by simp [List.flatMap]]
  rw [List.pairwise_flatten]
  constructor
  · intro l hl
    rw [List.mem_map] at hl
    obtain ⟨a, -, rfl⟩ := hl
    rw [List.pairwise_map]
    refine (pairwise_indexOf_lt (nodup_uniqueList (track_df.map Record.gender))).imp ?_
    intro g1 g2 hlt
    exact Or.inr ⟨rfl, hlt⟩
  · rw [List.pairwise_map]
    refine (pairwise_strLt_age_groups track_df).imp ?_
    intro a1 a2 hlt x hx y hy
    rw [List.mem_map] at hx hy
    obtain ⟨g1, -, rfl⟩ := hx
    obtain ⟨g2, -, rfl⟩ := hy
    exact Or.inl hlt

/-- C6 (amended): the primary segment is a cell of maximal rounded share
over the observed age × gender grid, and any other cell tying that
rounded share comes strictly later in the scan order — ascending age
bucket label, then gender in first-appearance (encounter) order of the
filtered records, not lexicographic gender order. -/
theorem C6_amended_primary_first_in_scan_order (df : List Record) (t a : String)
    (hpos : 0 < totalStreamsOf (track_filter df t a)) :
    ∃ cell,
      primary_segment df t a = some cell ∧
        cell ∈ age_gender_pct (track_filter df t a)
          (totalStreamsOf (track_filter df t a)) ∧
        (∀ c ∈ age_gender_pct (track_filter df t a)
            (totalStreamsOf (track_filter df t a)), c.2 ≤ cell.2) ∧
        ∀ c ∈ age_gender_pct (track_filter df t a)
            (totalStreamsOf (track_filter df t a)),
          c.2 = cell.2 → c ≠ cell → cellBefore (track_filter df t a) cell c := by
  set td := track_filter df t a with htd
  set total := totalStreamsOf td with htotal
  have hne : td ≠ [] := by
    intro he
    rw [htotal, he] at hpos
    simp [totalStreamsOf] at hpos
  obtain ⟨r, hr⟩ := List.exists_mem_of_ne_nil td hne
  have hage : r.age_group ∈ age_groups td := by
    unfold age_groups
    rw [(List.perm_insertionSort strLe _).mem_iff, mem_uniqueList]
    exact List.mem_map_of_mem _ hr
  have hgen : r.gender ∈ genders td := by
    unfold genders
    rw [mem_uniqueList]
    exact List.mem_map_of_mem _ hr
  have hcell : ((r.age_group, r.gender),
      round1 ((cellStreams td r.age_group r.gender : Rat) / (total : Rat) * 100)) ∈
        age_gender_pct td total := by
    rw [age_gender_pct, List.mem_flatMap]
    exact ⟨r.age_group, hage, List.mem_map_of_mem _ hgen⟩
  have hgridne : age_gender_pct td total ≠ [] := List.ne_nil_of_mem hcell
  obtain ⟨m, pre, post, ham, hdec, hpre, hbound⟩ := argmaxFirst_decomp hgridne
  have hP := grid_pairwise_cellBefore td total
  refine ⟨m, ?_, ?_, hbound, ?_⟩
  · show argmaxFirst (age_gender_pct td total) = some m
    exact ham
  · rw [hdec]
    exact List.mem_append_right pre (List.mem_cons_self _ _)
  · intro c hc hceq hcne
    rw [hdec] at hc hP
    rcases List.mem_append.mp hc with hcp | hcm
    · exact absurd hceq (ne_of_lt (hpre c hcp))
    · rcases List.mem_cons.mp hcm with rfl | hcpost
      · exact absurd rfl hcne
      · exact (List.pairwise_cons.mp (List.pairwise_append.mp hP).2.1).1 c hcpost

/-- A second slice of the same track: identical streams, gender FEMALE,
with MALE appearing first in the record sequence. -/
def recSampleF : Record :=
  { track_name := "T", artist_name := "A", age_group := "18-24"
    gender := "FEMALE", total_streams := 100, total_saves := 10, skip_rate := 5 }

/-- The track name of the segmentation scenario. -/
def trackT : String := "T"

/-- The artist name of the segmentation scenario. -/
def artistA : String := "A"

/-- The two-slice dataset of the segmentation tie scenario. -/
def segInput : List Record := [recSample, recSampleF]

/-- Counterexample to C6 as stated: both cells round to 50.0, the code
picks (18-24, MALE) because MALE is encountered first, while the claimed
ascending-lexicographic tie-break picks (18-24, FEMALE). -/
theorem C6_counterexample :
    primary_segment segInput trackT artistA = some (("18-24", "MALE"), 50) ∧
      claimPrimaryLex (age_gender_pct (track_filter segInput trackT artistA)
          (totalStreamsOf (track_filter segInput trackT artistA))) =
        some (("18-24", "FEMALE"), 50) := by
  have hFM : (("FEMALE" : String) == "MALE") = false := by decide
  have hMF : (("MALE" : String) == "FEMALE") = false := by decide
  have hFMp : ¬ (("FEMALE" : String) = "MALE") := by decide
  have hMFp : ¬ (("MALE" : String) = "FEMALE") := by decide
  have hgrid : age_gender_pct (track_filter segInput trackT artistA)
      (totalStreamsOf (track_filter segInput trackT artistA)) =
      [(("18-24", "MALE"), 50), (("18-24", "FEMALE"), 50)] := by
    norm_num [age_gender_pct, age_groups, genders, uniqueList, uniqueAux,
      List.insertionSort, List.orderedInsert, cellStreams, track_filter,
      totalStreamsOf, recSample, recSampleF, segInput, trackT, artistA,
      round1, round_eq, hFM, hMF, hFMp, hMFp]
  constructor
  · show argmaxFirst (age_gender_pct (track_filter segInput trackT artistA)
        (totalStreamsOf (track_filter segInput trackT artistA))) = _
    rw [hgrid]
    norm_num [argmaxFirst, pickMax]
  · rw [hgrid]
    unfold claimPrimaryLex
    norm_num [maxQ, List.insertionSort, List.orderedInsert,
      if_neg (show ¬ keyLe ("18-24", "MALE") ("18-24", "FEMALE") from by decide)]

/-- Witness for C6 (amended): the tie scenario has positive filtered
streams and the theorem applies there. -/
theorem C6_amended_primary_first_in_scan_order_witness :
    0 < totalStreamsOf (track_filter segInput trackT artistA) ∧
      ∃ cell,
        primary_segment segInput trackT artistA = some cell ∧
          cell ∈ age_gender_pct (track_filter segInput trackT artistA)
            (totalStreamsOf (track_filter segInput trackT artistA)) ∧
          (∀ c ∈ age_gender_pct (track_filter segInput trackT artistA)
              (totalStreamsOf (track_filter segInput trackT artistA)), c.2 ≤ cell.2) ∧
          ∀ c ∈ age_gender_pct (track_filter segInput trackT artistA)
              (totalStreamsOf (track_filter segInput trackT artistA)),
            c.2 = cell.2 → c ≠ cell →
              cellBefore (track_filter segInput trackT artistA) cell c := by
  have hpos : 0 < totalStreamsOf (track_filter segInput trackT artistA) := by
    norm_num [totalStreamsOf, track_filter, segInput, recSample, recSampleF,
      trackT, artistA]
  exact ⟨hpos, C6_amended_primary_first_in_scan_order segInput trackT artistA hpos⟩

/-! ### Rounded share sums (claim C8) -/

theorem round1_err (x : Rat) : |round1 x - x| ≤ 1 / 20 := by
  have h := abs_sub_round (x * 10)
  unfold round1
  have he : ((round (x * 10) : Int) : Rat) / 10 - x =
      -((x * 10 - ((round (x * 10) : Int) : Rat)) / 10) := by ring
  rw [he, abs_neg, abs_div]
  have h10 : |(10 : Rat)| = 10 := by norm_num
  rw [h10]
  linarith

theorem sum_round1_err :
    ∀ xs : List Rat,
      |(xs.map round1).sum - xs.sum| ≤ (xs.length : Rat) * (1 / 20) := by
  intro xs
  induction xs with
  | nil => simp
  | cons x xs ih =>
      simp only [List.map_cons, List.sum_cons, List.length_cons]
      have h1 := round1_err x
      have he : round1 x + (xs.map round1).sum - (x + xs.sum) =
          (round1 x - x) + ((xs.map round1).sum - xs.sum) := by ring
      rw [he]
      calc |(round1 x - x) + ((xs.map round1).sum - xs.sum)| ≤
            |round1 x - x| + |(xs.map round1).sum - xs.sum| := abs_add _ _
        _ ≤ 1 / 20 + (xs.length : Rat) * (1 / 20) := add_le_add h1 ih
        _ = ((xs.length + 1 : Nat) : Rat) * (1 / 20) := by push_cast; ring

theorem sum_map_mul_c {K : Type} (g : K → Rat) (c : Rat) :
    ∀ ks : List K, (ks.map fun v => g v * c).sum = (ks.map g).sum * c := by
  intro ks
  induction ks with
  | nil => simp
  | cons k ks ih =>
      simp only [List.map_cons, List.sum_cons, ih]
      ring

/-- The unrounded observed-value shares of any complete duplicate-free
key list sum to exactly 100 percent. -/
theorem sum_shares_unrounded {K : Type} [DecidableEq K] (l : List Record)
    (key : Record → K) (ks : List K) (hnd : ks.Nodup)
    (hcov : ∀ r ∈ l, key r ∈ ks) (htot : totalStreamsOf l ≠ 0) :
    (ks.map fun v =>
      (((l.filter fun r => decide (key r = v)).map Record.total_streams).sum : Rat) /
        (totalStreamsOf l : Rat) * 100).sum = 100 := by
  have hfib := sum_fiber key (fun r => (r.total_streams : Rat)) ks l hnd hcov
  have hcast : ∀ v : K,
      (((l.filter fun r => decide (key r = v)).map Record.total_streams).sum : Rat) =
        ((l.filter fun r => decide (key r = v)).map fun r =>
          (r.total_streams : Rat)).sum := by
    intro v
    rw [Nat.cast_list_sum, List.map_map]
    rfl
  have htotc : ((totalStreamsOf l : Nat) : Rat) =
      (l.map fun r => (r.total_streams : Rat)).sum := by
    unfold totalStreamsOf
    rw [Nat.cast_list_sum, List.map_map]
    rfl
  have hshape : (ks.map fun v =>
      (((l.filter fun r => decide (key r = v)).map Record.total_streams).sum : Rat) /
        (totalStreamsOf l : Rat) * 100) =
      ks.map fun v =>
        ((l.filter fun r => decide (key r = v)).map fun r =>
          (r.total_streams : Rat)).sum * (100 / (totalStreamsOf l : Rat)) := by
    refine List.map_congr_left ?_
    intro v _
    rw [hcast v]
    ring
  rw [hshape, sum_map_mul_c, hfib, ← htotc]
  have hne : ((totalStreamsOf l : Nat) : Rat) ≠ 0 := by exact_mod_cast htot
  field_simp

/-- The rounded shares of any complete duplicate-free key list sum to 100
within one half rounding unit (0.05 percentage points) per key. -/
theorem sum_rounded_shares_close {K : Type} [DecidableEq K] (l : List Record)
    (key : Record → K) (ks : List K) (hnd : ks.Nodup)
    (hcov : ∀ r ∈ l, key r ∈ ks) (htot : totalStreamsOf l ≠ 0) :
    |(ks.map fun v => round1
        ((((l.filter fun r => decide (key r = v)).map Record.total_streams).sum : Rat) /
          (totalStreamsOf l : Rat) * 100)).sum - 100| ≤
      (ks.length : Rat) * (1 / 20) := by
  have h100 := sum_shares_unrounded l key ks hnd hcov htot
  have herr := sum_round1_err (ks.map fun v =>
    (((l.filter fun r => decide (key r = v)).map Record.total_streams).sum : Rat) /
      (totalStreamsOf l : Rat) * 100)
  rw [List.map_map, h100, List.length_map] at herr
  simpa [Function.comp] using herr

theorem beq_eq_decide {α : Type} [DecidableEq α] (a b : α) :
    (a == b) = decide (a = b) := by
  by_cases h : a = b
  · subst h; simp
  · rw [beq_eq_false_iff_ne.mpr h, decide_eq_false h]

theorem ageStreams_eq (l : List Record) (v : String) :
    ageStreams l v =
      ((l.filter fun r => decide (r.age_group = v)).map Record.total_streams).sum := by
  unfold ageStreams
  have h : (l.filter fun r => r.age_group == v) =
      l.filter fun r => decide (r.age_group = v) :=
    List.filter_congr fun r _ => beq_eq_decide _ _
  rw [h]

theorem genderStreams_eq (l : List Record) (v : String) :
    genderStreams l v =
      ((l.filter fun r => decide (r.gender = v)).map Record.total_streams).sum := by
  unfold genderStreams
  have h : (l.filter fun r => r.gender == v) =
      l.filter fun r => decide (r.gender = v) :=
    List.filter_congr fun r _ => beq_eq_decide _ _
  rw [h]

theorem cellStreams_eq (l : List Record) (p : String × String) :
    cellStreams l p.1 p.2 =
      ((l.filter fun r =>
        decide ((r.age_group, r.gender) = p)).map Record.total_streams).sum := by
  unfold cellStreams
  have h : (l.filter fun r => r.age_group == p.1 && r.gender == p.2) =
      l.filter fun r => decide ((r.age_group, r.gender) = p) :=
    List.filter_congr fun r _ => by
      cases p with
      | mk p1 p2 =>
          simp only [Prod.mk.injEq, Bool.decide_and, beq_eq_decide]
  rw [h]

theorem nodup_age_groups (td : List Record) : (age_groups td).Nodup :=
  (List.perm_insertionSort strLe _).nodup_iff.mpr (nodup_uniqueList _)

theorem nodup_genders (td : List Record) : (genders td).Nodup :=
  nodup_uniqueList _

theorem mem_age_groups {td : List Record} {r : Record} (hr : r ∈ td) :
    r.age_group ∈ age_groups td := by
  unfold age_groups
  rw [(List.perm_insertionSort strLe _).mem_iff, mem_uniqueList]
  exact List.mem_map_of_mem _ hr

theorem mem_genders {td : List Record} {r : Record} (hr : r ∈ td) :
    r.gender ∈ genders td := by
  unfold genders
  rw [mem_uniqueList]
  exact List.mem_map_of_mem _ hr

theorem crosstab_values (td : List Record) (total : Nat) :
    (age_gender_pct td total).map (fun c => c.2) =
      ((age_groups td) ×ˢ (genders td)).map fun p =>
        round1 ((cellStreams td p.1 p.2 : Rat) / (total : Rat) * 100) := by
  unfold age_gender_pct
  rw [List.map_flatMap]
  have hprod : (age_groups td) ×ˢ (genders td) =
      (age_groups td).flatMap fun a => (genders td).map fun g => (a, g) := rfl
  rw [hprod, List.map_flatMap]
  refine congrArg (List.flatMap (age_groups td)) (funext fun a => ?_)
  rw [List.map_map, List.map_map]
  exact List.map_congr_left fun g _ => rfl

/-- C8 (amended): the rounded per-age, per-gender and cross-tab shares of
a track with positive filtered streams each sum to 100 within 0.05
percentage points per observed value (one half rounding unit per cell),
not within the fixed 0.1 / 0.1 / 0.4 bounds the claim states. -/
theorem C8_amended_rounded_share_sums (df : List Record) (t a : String)
    (hpos : 0 < totalStreamsOf (track_filter df t a)) :
    |(age_pct_list (track_filter df t a)
          (totalStreamsOf (track_filter df t a))).sum - 100| ≤
        ((age_groups (track_filter df t a)).length : Rat) * (1 / 20) ∧
      |(gender_pct_list (track_filter df t a)
            (totalStreamsOf (track_filter df t a))).sum - 100| ≤
        ((genders (track_filter df t a)).length : Rat) * (1 / 20) ∧
      |((age_gender_pct (track_filter df t a)
            (totalStreamsOf (track_filter df t a))).map fun c => c.2).sum - 100| ≤
        (((age_groups (track_filter df t a)).length *
            (genders (track_filter df t a)).length : Nat) : Rat) * (1 / 20) := by
  set td := track_filter df t a with htd
  have htot0 : totalStreamsOf td ≠ 0 := Nat.pos_iff_ne_zero.mp hpos
  refine ⟨?_, ?_, ?_⟩
  · have h := sum_rounded_shares_close td Record.age_group (age_groups td)
      (nodup_age_groups td) (fun r hr => mem_age_groups hr) htot0
    have hshape : age_pct_list td (totalStreamsOf td) =
        (age_groups td).map fun v => round1
          ((((td.filter fun r => decide (r.age_group = v)).map
              Record.total_streams).sum : Rat) / (totalStreamsOf td : Rat) * 100) := by
      unfold age_pct_list
      refine List.map_congr_left ?_
      intro v _
      rw [ageStreams_eq]
    rw [hshape]
    exact h
  · have h := sum_rounded_shares_close td Record.gender (genders td)
      (nodup_genders td) (fun r hr => mem_genders hr) htot0
    have hshape : gender_pct_list td (totalStreamsOf td) =
        (genders td).map fun v => round1
          ((((td.filter fun r => decide (r.gender = v)).map
              Record.total_streams).sum : Rat) / (totalStreamsOf td : Rat) * 100) := by
      unfold gender_pct_list
      refine List.map_congr_left ?_
      intro v _
      rw [genderStreams_eq]
    rw [hshape]
    exact h
  · have h := sum_rounded_shares_close td (fun r => (r.age_group, r.gender))
      ((age_groups td) ×ˢ (genders td))
      ((nodup_age_groups td).product (nodup_genders td))
      (fun r hr => List.mem_product.mpr ⟨mem_age_groups hr, mem_genders hr⟩) htot0
    rw [crosstab_values td (totalStreamsOf td)]
    have hshape : (((age_groups td) ×ˢ (genders td)).map fun p =>
        round1 ((cellStreams td p.1 p.2 : Rat) / (totalStreamsOf td : Rat) * 100)) =
        ((age_groups td) ×ˢ (genders td)).map fun p => round1
          ((((td.filter fun r => decide ((r.age_group, r.gender) = p)).map
              Record.total_streams).sum : Rat) / (totalStreamsOf td : Rat) * 100) := by
      refine List.map_congr_left ?_
      intro p _
      rw [cellStreams_eq]
    rw [hshape, ← List.length_product (age_groups td) (genders td)]
    exact h

/-- Witness for C8 (amended): the two-slice scenario has positive
filtered streams and the theorem applies there. -/
theorem C8_amended_rounded_share_sums_witness :
    0 < totalStreamsOf (track_filter segInput trackT artistA) ∧
      (|(age_pct_list (track_filter segInput trackT artistA)
            (totalStreamsOf (track_filter segInput trackT artistA))).sum - 100| ≤
          ((age_groups (track_filter segInput trackT artistA)).length : Rat) * (1 / 20) ∧
        |(gender_pct_list (track_filter segInput trackT artistA)
              (totalStreamsOf (track_filter segInput trackT artistA))).sum - 100| ≤
          ((genders (track_filter segInput trackT artistA)).length : Rat) * (1 / 20) ∧
        |((age_gender_pct (track_filter segInput trackT artistA)
              (totalStreamsOf (track_filter segInput trackT artistA))).map
            fun c => c.2).sum - 100| ≤
          (((age_groups (track_filter segInput trackT artistA)).length *
              (genders (track_filter segInput trackT artistA)).length : Nat) : Rat) *
            (1 / 20)) := by
  have hpos : 0 < totalStreamsOf (track_filter segInput trackT artistA) := by
    norm_num [totalStreamsOf, track_filter, segInput, recSample, recSampleF,
      trackT, artistA]
  exact ⟨hpos, C8_amended_rounded_share_sums segInput trackT artistA hpos⟩

/-- Six one-stream slices of one track in six distinct age buckets. -/
def sixAges : List Record :=
  [{ track_name := "S", artist_name := "B", age_group := "A1", gender := "F"
     total_streams := 1, total_saves := 0, skip_rate := 0 },
   { track_name := "S", artist_name := "B", age_group := "A2", gender := "F"
     total_streams := 1, total_saves := 0, skip_rate := 0 },
   { track_name := "S", artist_name := "B", age_group := "A3", gender := "F"
     total_streams := 1, total_saves := 0, skip_rate := 0 },
   { track_name := "S", artist_name := "B", age_group := "A4", gender := "F"
     total_streams := 1, total_saves := 0, skip_rate := 0 },
   { track_name := "S", artist_name := "B", age_group := "A5", gender := "F"
     total_streams := 1, total_saves := 0, skip_rate := 0 },
   { track_name := "S", artist_name := "B", age_group := "A6", gender := "F"
     total_streams := 1, total_saves := 0, skip_rate := 0 }]

/-- Counterexample to C8 as stated: with six equal age buckets every
share rounds from 16.666… up to 16.7, the rounded sum is 100.2, and the
claimed ±0.1 bound on the per-age sum fails. -/
theorem C8_counterexample :
    (age_pct_list sixAges (totalStreamsOf sixAges)).sum = 501 / 5 ∧
      ¬ |(age_pct_list sixAges (totalStreamsOf sixAges)).sum - 100| ≤ 1 / 10 := by
  have hages : age_groups sixAges = ["A1", "A2", "A3", "A4", "A5", "A6"] := by decide
  have htot : totalStreamsOf sixAges = 6 := by decide
  have h1 : ageStreams sixAges ("A1") = 1 := by decide
  have h2 : ageStreams sixAges ("A2") = 1 := by decide
  have h3 : ageStreams sixAges ("A3") = 1 := by decide
  have h4 : ageStreams sixAges ("A4") = 1 := by decide
  have h5 : ageStreams sixAges ("A5") = 1 := by decide
  have h6 : ageStreams sixAges ("A6") = 1 := by decide
  have hsum : (age_pct_list sixAges (totalStreamsOf sixAges)).sum = 501 / 5 := by
    unfold age_pct_list
    rw [hages, htot]
    simp only [List.map_cons, List.map_nil, List.sum_cons, List.sum_nil,
      h1, h2, h3, h4, h5, h6]
    norm_num [round1, round_eq]
  refine ⟨hsum, ?_⟩
  rw [hsum]
  intro hle
  rw [abs_le] at hle
  norm_num at hle

end CaseChallenge
